import Mathlib

/-!
Verification of the round-trip significance classification engine of
tests/roundtrip-test.js (Parsoid round-trip testing script).

The development shallowly embeds the three in-file algorithms the claims
are about:

* `normalizeWikitext` — the wikitext normalizer (a chain of JS regex
  replaces, each embedded as an executable scanner over `List Char`);
* `findMatchingNodes` / `walkDOM` — the recursive source-range-to-DOM
  alignment algorithm, with its shared mutable closure state
  (`currentOffset`, `wasWaiting`, `waitingForEndMatch`) threaded
  explicitly as an `MState` value;
* `checkIfSignificant` — the significance classifier, with the external
  DOMUtils/Diff collaborators (`normalizeOut`, `serializeNode`,
  `formatHTML`, `htmlDiff`, `decodedCommentLength`, `outerHTML`) taken
  as parameters, mirroring the spec's "external collaborators" boundary.

JS-specific semantics are modelled explicitly: machine numbers as `Int`
(all offsets in the script are integral), `||` defaulting with its
truthiness on `0`/`null` (`jsOrInt`), truthiness tests on possibly-null
numbers (`jsTruthyInt`), `String.prototype.substring`/`substr` clamping
(`jsSubstring`/`jsSubstr`).  String indices are UTF-16 code units in JS;
the embedding uses characters, which agrees on ASCII data (all concrete
inputs used below are ASCII).  Regex scanners that advance through their
input use a fuel argument (`length + 1` is always sufficient since every
step consumes at least one input character); fuel keeps every definition
structurally recursive and hence kernel-evaluable.
-/

/-- JS `\s` whitespace class, restricted to its ASCII members (space, tab,
newline, carriage return, vertical tab, form feed).  The Unicode space
characters JS also includes never occur in the concrete data used here. -/
def jsIsSpace (c : Char) : Bool :=
  c == ' ' || c == '\t' || c == '\n' || c == '\r' ||
    c == Char.ofNat 11 || c == Char.ofNat 12

/-- JS `\w` word character class `[A-Za-z0-9_]`, used for `\b` boundaries. -/
def isWordChar (c : Char) : Bool :=
  ('a' ≤ c && c ≤ 'z') || ('A' ≤ c && c ≤ 'Z') || ('0' ≤ c && c ≤ '9') || c == '_'

/-- A `\b` word boundary holds after a literal when the following character
is absent or not a word character. -/
def boundaryAfter : List Char → Bool
  | [] => true
  | c :: _ => !isWordChar c

/-- Literal prefix match: returns the remainder when `pat` is a prefix of
the input. -/
def litHead : List Char → List Char → Option (List Char)
  | [], rest => some rest
  | _ :: _, [] => none
  | p :: ps, c :: cs => if c = p then litHead ps cs else none

/-- Case-insensitive literal prefix match (for the `i`-flagged regex of the
normalizer's last rule); `pat` is given in lower case. -/
def ciHead : List Char → List Char → Option (List Char)
  | [], rest => some rest
  | _ :: _, [] => none
  | p :: ps, c :: cs => if c.toLower = p then ciHead ps cs else none

/-- JS `s.substring(a, b)`: both indices clamped into `[0, length]` and
swapped when out of order. -/
def jsSubstring (s : String) (a b : Int) : String :=
  let n : Int := (s.length : Int)
  let a' := min (max a 0) n
  let b' := min (max b 0) n
  let lo := min a' b'
  let hi := max a' b'
  ⟨(s.data.drop lo.toNat).take (hi - lo).toNat⟩

/-- JS `s.substr(start, length)`: a negative start counts from the end
(clamped at 0), a negative length yields the empty string. -/
def jsSubstr (s : String) (start length : Int) : String :=
  let n : Int := (s.length : Int)
  let st := if start < 0 then max (n + start) 0 else min start n
  let len := min (max length 0) (n - st)
  ⟨(s.data.drop st.toNat).take len.toNat⟩

/-! ## The wikitext normalizer (`normalizeWikitext`)

Each numbered rule below embeds one `str.replace(...)` of the source, in
source order. -/

/-- Rule 1: `replace(/^\t/, ' ')` — one leading tab becomes a space. -/
def ruleLeadingTab : List Char → List Char
  | '\t' :: rest => ' ' :: rest
  | l => l

/-- Rule 2: `replace(/\n\t/g, '\n ')` — a tab directly after a newline
becomes a space. -/
def ruleNewlineTab : List Char → List Char
  | '\n' :: '\t' :: rest => '\n' :: ' ' :: ruleNewlineTab rest
  | c :: rest => c :: ruleNewlineTab rest
  | [] => []

/-- Rule 3: `replace(/ +/g, ' ')` — collapse every run of spaces to a
single space.  The flag records whether the previous kept position ended a
space run. -/
def collapseRun (prevSpace : Bool) : List Char → List Char
  | [] => []
  | c :: rest =>
    if c = ' ' then
      if prevSpace then collapseRun true rest else ' ' :: collapseRun true rest
    else c :: collapseRun false rest

/-- Rule 4 helper: the `((?:[^>\/]|\/(?!>))*)\/?>` tail of the tag regex:
consume remaining-attribute characters (any character other than `>`, and
`/` only when not directly before `>`), then an optional `/` and the
closing `>`.  Returns the remaining-group characters and the input after
the match, or `none` when the input ends before a `>`. -/
def tagRemainder : List Char → Option (List Char × List Char)
  | [] => none
  | '>' :: rest => some ([], rest)
  | '/' :: '>' :: rest => some ([], rest)
  | '/' :: c :: rest =>
    (tagRemainder (c :: rest)).map (fun pr => ('/' :: pr.1, pr.2))
  | ['/'] => none
  | c :: rest => (tagRemainder rest).map (fun pr => (c :: pr.1, pr.2))

/-- Rule 4 helper: `remaining.replace(/ $/, '')` — drop one trailing
space. -/
def dropOneTrailingSpace (l : List Char) : List Char :=
  match l.reverse with
  | ' ' :: t => t.reverse
  | _ => l

/-- Rule 4 helper: try to match `<(\/?)([^ >\/]+)((?:[^>\/]|\/(?!>))*)\/?>`
with the leading `<` already consumed; on success returns the replacement
`'<' + close + name.toLowerCase() + remaining.replace(/ $/,'') + '>'` and
the input after the match. -/
def tagTry (l : List Char) : Option (List Char × List Char) :=
  let close : List Char × List Char :=
    match l with
    | '/' :: t => (['/'], t)
    | _ => ([], l)
  let name := close.2.takeWhile (fun c => !(c == ' ' || c == '>' || c == '/'))
  if name.isEmpty then none
  else
    match tagRemainder (close.2.drop name.length) with
    | none => none
    | some (remaining, after) =>
      some ('<' :: close.1 ++ name.map Char.toLower ++
              dropOneTrailingSpace remaining ++ ['>'], after)

/-- Rule 4: the global scan for the tag-normalizing replace. -/
def ruleTagGo : Nat → List Char → List Char
  | 0, l => l
  | _ + 1, [] => []
  | fuel + 1, '<' :: rest =>
    match tagTry rest with
    | some (repl, after) => repl ++ ruleTagGo fuel after
    | none => '<' :: ruleTagGo fuel rest
  | fuel + 1, c :: rest => c :: ruleTagGo fuel rest

def ruleTag (l : List Char) : List Char := ruleTagGo (l.length + 1) l

/-- Rule 5 helper: group 2 of the table-cell regex,
`(\{\||\|[\-+]*|!)`, alternatives in source order. -/
def cellG2 : List Char → Option (List Char × List Char)
  | '{' :: '|' :: t => some (['{', '|'], t)
  | '|' :: t =>
    let run := t.takeWhile (fun c => c == '-' || c == '+')
    some ('|' :: run, t.drop run.length)
  | '!' :: t => some (['!'], t)
  | _ => none

/-- Rule 5 helper: after groups 1 and 2, the regex ` *([^|\n]*?) *(?=[|\n]|$)`
always succeeds: the lazy content group is the text up to (excluding) the
trailing space run that precedes the next `|`, newline, or the end.
Returns the replacement `$1$2$3` and the unconsumed rest (the lookahead is
not consumed). -/
def cellTail (g1 g2 r0 : List Char) : List Char × List Char :=
  let r1 := r0.drop (r0.takeWhile (fun c => c == ' ')).length
  let seg := r1.takeWhile (fun c => !(c == '|' || c == '\n'))
  let rest := r1.drop seg.length
  let content := (seg.reverse.dropWhile (fun c => c == ' ')).reverse
  (g1 ++ g2 ++ content, rest)

/-- Rule 5 helper: attempt the whole match at the current position.
Group 1 `(^|\n|\|(?=\|)|!(?=!))` alternatives are tried in source order;
`^` only applies at position 0 (no `m` flag). -/
def cellTry (atStart : Bool) (l : List Char) : Option (List Char × List Char) :=
  let viaG1 : List Char → List Char → Option (List Char × List Char) :=
    fun g1 m => (cellG2 m).map (fun pr => cellTail g1 pr.1 pr.2)
  match (if atStart then viaG1 [] l else none) with
  | some r => some r
  | none =>
    match l with
    | '\n' :: t => viaG1 ['\n'] t
    | '|' :: '|' :: t => viaG1 ['|'] ('|' :: t)
    | '!' :: '!' :: t => viaG1 ['!'] ('!' :: t)
    | _ => none

/-- Rule 5: the global scan for
`replace(/(^|\n|\|(?=\|)|!(?=!))(\{\||\|[\-+]*|!) *([^|\n]*?) *(?=[|\n]|$)/g, '$1$2$3')`. -/
def ruleCellGo : Nat → Bool → List Char → List Char
  | 0, _, l => l
  | _ + 1, _, [] => []
  | fuel + 1, atStart, l =>
    match cellTry atStart l with
    | some (repl, rest) => repl ++ ruleCellGo fuel false rest
    | none =>
      match l with
      | c :: t => c :: ruleCellGo fuel false t
      | [] => []

def ruleCell (l : List Char) : List Char := ruleCellGo (l.length + 1) true l

/-- Rule 6 helper: try to match `style\s*=\s*"[^"]+"` at the current
position; returns the matched characters and the rest. -/
def styleTry (l : List Char) : Option (List Char × List Char) :=
  match litHead ['s', 't', 'y', 'l', 'e'] l with
  | none => none
  | some r1 =>
    let sp1 := r1.takeWhile jsIsSpace
    match r1.drop sp1.length with
    | '=' :: r2 =>
      let sp2 := r2.takeWhile jsIsSpace
      match r2.drop sp2.length with
      | '"' :: r3 =>
        let content := r3.takeWhile (fun c => !(c == '"'))
        if content.isEmpty then none
        else
          match r3.drop content.length with
          | '"' :: rest =>
            some (['s', 't', 'y', 'l', 'e'] ++ sp1 ++ '=' :: sp2 ++
                    '"' :: content ++ ['"'], rest)
          | _ => none
      | _ => none
    | _ => none

/-- Rule 6 helper: `match.replace(/\s|;(?=")/g, '')` applied to a matched
style attribute: drop every whitespace character and every `;` standing
directly before a `"`. -/
def styleClean : List Char → List Char
  | [] => []
  | c :: rest =>
    if jsIsSpace c then styleClean rest
    else if c == ';' then
      match rest with
      | '"' :: _ => styleClean rest
      | _ => ';' :: styleClean rest
    else c :: styleClean rest

/-- Rule 6: the global scan for `replace(/style\s*=\s*"[^"]+"/g, fn)`. -/
def ruleStyleGo : Nat → List Char → List Char
  | 0, l => l
  | _ + 1, [] => []
  | fuel + 1, l =>
    match styleTry l with
    | some (matched, rest) => styleClean matched ++ ruleStyleGo fuel rest
    | none =>
      match l with
      | c :: t => c :: ruleStyleGo fuel t
      | [] => []

def ruleStyle (l : List Char) : List Char := ruleStyleGo (l.length + 1) l

/-- Rule 7: `replace(/"([^"]*?)"/g, '$1')` — strip matched pairs of double
quotes, left to right. -/
def ruleQuoteGo : Nat → List Char → List Char
  | 0, l => l
  | _ + 1, [] => []
  | fuel + 1, '"' :: rest =>
    let content := rest.takeWhile (fun c => !(c == '"'))
    match rest.drop content.length with
    | '"' :: after => content ++ ruleQuoteGo fuel after
    | _ => '"' :: ruleQuoteGo fuel rest
  | fuel + 1, c :: rest => c :: ruleQuoteGo fuel rest

def ruleQuote (l : List Char) : List Char := ruleQuoteGo (l.length + 1) l

/-- Rules 8/9 helper: the lookahead `(?=\n[|!]|\n?$)`. -/
def closerLookahead : List Char → Bool
  | [] => true
  | ['\n'] => true
  | '\n' :: c :: _ => c == '|' || c == '!'
  | _ => false

/-- Rule 8 helper: literal (case-sensitive) `<\/(?:small|center)>`. -/
def smallCenterCloser (l : List Char) : Option (List Char) :=
  match litHead ['<', '/', 's', 'm', 'a', 'l', 'l', '>'] l with
  | some r => some r
  | none => litHead ['<', '/', 'c', 'e', 'n', 't', 'e', 'r', '>'] l

/-- Rule 8: `replace(/(^|\n)<\/(?:small|center)>(?=\n[|!]|\n?$)/g, '')` —
the whole match (including the leading newline of group 1) is deleted. -/
def ruleLineCloserGo : Nat → Bool → List Char → List Char
  | 0, _, l => l
  | _ + 1, _, [] => []
  | fuel + 1, atStart, l =>
    match (if atStart then
             match smallCenterCloser l with
             | some rest => if closerLookahead rest then some rest else none
             | none => none
           else none) with
    | some rest => ruleLineCloserGo fuel false rest
    | none =>
      match l with
      | '\n' :: t =>
        match smallCenterCloser t with
        | some rest =>
          if closerLookahead rest then ruleLineCloserGo fuel false rest
          else '\n' :: ruleLineCloserGo fuel false t
        | none => '\n' :: ruleLineCloserGo fuel false t
      | c :: t => c :: ruleLineCloserGo fuel false t
      | [] => []

def ruleLineCloser (l : List Char) : List Char := ruleLineCloserGo (l.length + 1) true l

/-- Rule 9 helper: case-insensitive `<\/(?:small|center)>`. -/
def smallCenterCloserCi (l : List Char) : Option (List Char) :=
  match ciHead ['<', '/', 's', 'm', 'a', 'l', 'l', '>'] l with
  | some r => some r
  | none => ciHead ['<', '/', 'c', 'e', 'n', 't', 'e', 'r', '>'] l

/-- Rule 9 helper: expand the lazy `.*?` (which cannot cross a newline)
until a closer with a satisfied lookahead is found; returns the group-1
tail (after the initial `[|!]` character) and the input after the
closer. -/
def cellCloserScan : List Char → List Char → Option (List Char × List Char)
  | acc, l =>
    match (match smallCenterCloserCi l with
           | some rest => if closerLookahead rest then some rest else none
           | none => none) with
    | some rest => some (acc.reverse, rest)
    | none =>
      match l with
      | c :: t => if c == '\n' then none else cellCloserScan (c :: acc) t
      | [] => none

/-- Rule 9: `replace(/([|!].*?)<\/(?:small|center)>(?=\n[|!]|\n?$)/gi, '$1')`. -/
def ruleCellCloserGo : Nat → List Char → List Char
  | 0, l => l
  | _ + 1, [] => []
  | fuel + 1, c :: t =>
    if c == '|' || c == '!' then
      match cellCloserScan [] t with
      | some (mid, rest) => (c :: mid) ++ ruleCellCloserGo fuel rest
      | none => c :: ruleCellCloserGo fuel t
    else c :: ruleCellCloserGo fuel t

def ruleCellCloser (l : List Char) : List Char := ruleCellCloserGo (l.length + 1) l

/-- The wikitext normalizer `normalizeWikitext` of tests/roundtrip-test.js:
the seven active replaces applied in source order (the rule commented out
in the source is omitted, as in the source). -/
def normalizeWikitext (s : String) : String :=
  let l1 := ruleLeadingTab s.data
  let l2 := ruleNewlineTab l1
  let l3 := collapseRun false l2
  let l4 := ruleTag l3
  let l5 := ruleCell l4
  let l6 := ruleStyle l5
  let l7 := ruleQuote l6
  let l8 := ruleLineCloser l7
  let l9 := ruleCellCloser l8
  ⟨l9⟩

example : normalizeWikitext "\" \" \"" = "  \"" := by decide
example : normalizeWikitext "  \"" = " \"" := by decide
example : normalizeWikitext "a  b" = "a b" := by decide
example : normalizeWikitext "<BR />" = "<br>" := by decide
example : normalizeWikitext "| a </small>\n|x" = "|a \n|x" := by decide
example : normalizeWikitext "|a \n|x" = "|a\n|x" := by decide
example : normalizeWikitext "style = \"a b;\"" = "style=ab" := by decide

/-! ## The DOM model and the node matcher (`findMatchingNodes` / `walkDOM`)

A node carries exactly the data the matcher reads: the `typeof` attribute
(`getAttribute('typeof') || ''`, so the empty string stands for an absent
attribute), the `about` attribute (used only by the spec-modelled
encapsulation skipper), the `dsr` field of its parsed `data-parsoid`
attribute, and its children.  `dsr = none` covers both a missing
`data-parsoid`/`dsr` (`DU.getJSONAttribute` returns `{}` on failure) and
an empty `dsr` array (rejected by the `attribs.dsr.length` guard); a
`none` entry inside the pair is a JSON `null`. -/

structure DSRPair where
  dsr0 : Option Int
  dsr1 : Option Int
deriving DecidableEq, Repr

inductive XNode where
  | elt (typeofAttr : String) (about : Option String) (dsr : Option DSRPair)
      (children : List XNode)
  | text (value : String)
  | comment (value : String)

/-- `DU.isElt` — nodeType 1. -/
def XNode.isElt : XNode → Bool
  | .elt _ _ _ _ => true
  | _ => false

/-- `getAttribute('typeof') || ''`. -/
def XNode.typeofOf : XNode → String
  | .elt t _ _ _ => t
  | _ => ""

def XNode.aboutOf : XNode → Option String
  | .elt _ a _ _ => a
  | _ => none

/-- The `dsr` field of the node's parsed `data-parsoid`. -/
def XNode.dsrOf : XNode → Option DSRPair
  | .elt _ _ d _ => d
  | _ => none

def XNode.childrenOf : XNode → List XNode
  | .elt _ _ _ cs => cs
  | _ => []

/-- JS truthiness of a possibly-null number: `null`/`undefined` and `0` are
falsy, every other number (negative included) truthy. -/
def jsTruthyInt : Option Int → Bool
  | some v => v != 0
  | none => false

/-- JS `v || d` on a possibly-null number: the default is used when the
value is `null`/`undefined` or `0` (the `0` case is what makes a zero
`dsr` bound behave as an unknown one in the source). -/
def jsOrInt (v : Option Int) (d : Int) : Int :=
  match v with
  | some x => if x = 0 then d else x
  | none => d

/-- The length the matcher accounts for a text or comment node:
`DU.isComment(n) ? DU.decodedCommentLength(n) : n.nodeValue.length`.
`decodedCommentLength` lives in DOMUtils (outside the given sources) and
is passed in as the parameter `dcl`.  The matcher only applies this to
text and comment nodes; the element case is unreachable there. -/
def nodeLen (dcl : String → Int) : XNode → Int
  | XNode.comment v => dcl v
  | XNode.text v => (v.length : Int)
  | XNode.elt _ _ _ _ => 0

/-- The `\bmw:(?:Transclusion\b|Param\b|Extension\/[^\s]+)` alternation,
tried after a boundary-checked `mw:` literal. -/
def encapAlt (l : List Char) : Bool :=
  (match litHead "Transclusion".data l with
   | some rest => boundaryAfter rest
   | none => false) ||
  (match litHead "Param".data l with
   | some rest => boundaryAfter rest
   | none => false) ||
  (match litHead "Extension/".data l with
   | some rest =>
     match rest with
     | c :: _ => !jsIsSpace c
     | [] => false
   | none => false)

/-- Scan for `/\bmw:(?:Transclusion\b|Param\b|Extension\/[^\s]+)/.test`,
carrying the previous character for the `\b` boundary check. -/
def encapScan : Option Char → List Char → Bool
  | _, [] => false
  | prev, 'm' :: 'w' :: ':' :: rest =>
    ((match prev with
      | none => true
      | some p => !isWordChar p) && encapAlt rest) ||
      encapScan (some 'm') ('w' :: ':' :: rest)
  | _, c :: rest => encapScan (some c) rest

/-- The encapsulated-content test applied to a node's `typeof`
attribute. -/
def isEncapType (s : String) : Bool := encapScan none s.data

example : isEncapType "mw:Transclusion" = true := by decide
example : isEncapType "mw:Transclusions" = false := by decide
example : isEncapType "foo mw:Param" = true := by decide
example : isEncapType "mw:Extension/ref" = true := by decide
example : isEncapType "mw:Extension/" = false := by decide
example : isEncapType "xmw:Param" = false := by decide

/-- Modelled from the spec: `DU.skipOverEncapsulatedContent` is defined in
DOMUtils, which is not among the given sources.  Per the spec's
Encapsulation Skipper ("given a node flagged as an atomic opaque block,
returns the next sibling to resume scanning after the entire block"), the
block consists of the node and the directly following siblings sharing
its `about` attribute; scanning resumes after them.  A node with no
`about` attribute resumes at its next sibling. -/
def skipOverEncapsulatedContent (c : XNode) (rest : List XNode) : List XNode :=
  match c.aboutOf with
  | some a => rest.dropWhile (fun n => n.aboutOf == some a)
  | none => rest

/-- Sibling advance at the end of a loop iteration: skip over encapsulated
content when the node's `typeof` matches the opaque pattern, otherwise
`nextSibling`. -/
def nextSiblings (c : XNode) (rest : List XNode) : List XNode :=
  if isEncapType c.typeofOf then skipOverEncapsulatedContent c rest else rest

/-- A `targetRange`: `{start, end}` with JS numbers as `Int`. -/
structure JRange where
  start : Int
  «end» : Int
deriving DecidableEq, Repr

/-- The shared mutable closure state of one `findMatchingNodes` call
(`currentOffset`, `wasWaiting`, `waitingForEndMatch`), threaded through
the recursion explicitly. -/
structure MState where
  currentOffset : Option Int
  wasWaiting : Bool
  waitingForEndMatch : Bool
deriving DecidableEq, Repr

structure MatchResult where
  done : Bool
  nodes : List XNode

/-- Outcome of the sibling loop of one `walkDOM` frame: either a `return`
executed inside the loop, or the final `elements` accumulator (after a
`break` or after the last sibling). -/
inductive LoopOut where
  | ret (r : MatchResult)
  | fin (elements : List XNode)

/-- Decision taken by the dsr-guarded block at the top of `walkDOM`
(lines 168–196 of the source) before the sibling loop is entered. -/
inductive SpanAct where
  | retNone
  | retRes (r : MatchResult) (st : MState)
  | walk (st : MState)

/-- The dsr-guarded block at the top of `walkDOM`: with
`start = attribs.dsr[0] || 0` and `end = attribs.dsr[1] || sourceLen - 1`,
prune disjoint nodes, absorb a node while `waitingForEndMatch`, return an
exact match, open a start match, and return a strictly-inside node; in
the remaining cases fall through to the sibling loop. -/
def spanStage (target : JRange) (sourceLen : Int) (st : MState) (e : XNode) : SpanAct :=
  match e.dsrOf with
  | none => SpanAct.walk st
  | some p =>
    let start := jsOrInt p.dsr0 0
    let «end» := jsOrInt p.dsr1 (sourceLen - 1)
    if target.«end» - 1 < start ∨ target.start > «end» - 1 then
      SpanAct.retNone
    else if st.waitingForEndMatch then
      SpanAct.retRes ⟨true, [e]⟩
        (if «end» ≥ target.«end» then { st with waitingForEndMatch := false } else st)
    else if p.dsr0.isSome ∧ target.start = start ∧ «end» = target.«end» then
      SpanAct.retRes ⟨true, [e]⟩ st
    else if target.start = start then
      if «end» < target.«end» then
        SpanAct.retRes ⟨false, [e]⟩ { st with waitingForEndMatch := true }
      else SpanAct.walk { st with waitingForEndMatch := true }
    else if start > target.start ∧ «end» < target.«end» then
      SpanAct.retRes ⟨false, [e]⟩ st
    else SpanAct.walk st

/-- The backward walk over the accumulated span-less `precedingNodes`
(given here already reversed, i.e. most recent first): pop nodes while
`diff > 0`, stop (dropping the popped node) as soon as a node's accounted
length exceeds the remaining `diff`.  Returns the kept nodes in pop
order. -/
def takeFit (dcl : String → Int) : List XNode → Int → List XNode
  | [], _ => []
  | n :: ns, diff =>
    if diff > 0 then
      let len := nodeLen dcl n
      if len > diff then [] else n :: takeFit dcl ns (diff - len)
    else []

/-- Lines 206–226 of the source: when `currentOffset` is still falsy and
the parent carries a non-null `dsr[0]`, set `currentOffset` to it and
prepend to the matched children those trailing `precedingNodes` whose
accounted lengths fit into the gap `currentOffset - targetRange.start`. -/
def reconcile (dcl : String → Int) (target : JRange) (parentDsr : Option DSRPair)
    (st : MState) (pn : List XNode) (nodes : List XNode) : MState × List XNode :=
  match parentDsr.bind (fun p => p.dsr0) with
  | some co =>
    if jsTruthyInt st.currentOffset then (st, nodes)
    else
      let diff := co - target.start
      let eles := takeFit dcl pn.reverse diff
      ({ st with currentOffset := some co }, eles.reverse ++ nodes)
  | none => (st, nodes)

/-- Lines 228–242 of the source: when exactly one node was matched and it
is an element with a truthy `dsr[1]`, either mark the result done (when
that end reaches the target's end) or advance `currentOffset` to it. -/
def singleChildCheck (target : JRange) (st : MState) (doneIn : Bool)
    (mc : List XNode) : MState × Bool :=
  match mc with
  | [XNode.elt _ _ (some q) _] =>
    if jsTruthyInt q.dsr1 then
      if q.dsr1.getD 0 ≥ target.«end» then (st, true)
      else ({ st with currentOffset := q.dsr1 }, doneIn)
    else (st, doneIn)
  | _ => (st, doneIn)

/-- Lines 257–266 of the source: at a text or comment child, when
`currentOffset` is truthy and below the target's end, advance it by the
node's accounted length and clear `waitingForEndMatch` once it reaches
the target's end. -/
def textStep (dcl : String → Int) (target : JRange) (st : MState) (c : XNode) : MState :=
  if jsTruthyInt st.currentOffset ∧ st.currentOffset.getD 0 < target.«end» then
    let co' := st.currentOffset.getD 0 + nodeLen dcl c
    let st' := { st with currentOffset := some co' }
    if co' ≥ target.«end» then { st' with waitingForEndMatch := false } else st'
  else st

mutual

/-- The recursive `walkDOM` closure of `findMatchingNodes` (lines
163–299 of the source), over explicit state and fuel.  The source only
ever calls it on element nodes; for completeness, text and comment nodes
yield `(st, none)`.  Fuel decreases on every call; `findMatchingNodes`
supplies `sizeOf root`, which dominates the recursion depth. -/
def walkDOM (dcl : String → Int) (target : JRange) (sourceLen : Int) :
    Nat → MState → XNode → MState × Option MatchResult
  | 0, st, _ => (st, none)
  | _ + 1, st, XNode.text _ => (st, none)
  | _ + 1, st, XNode.comment _ => (st, none)
  | fuel + 1, st, XNode.elt ty ab dsrA cs =>
    match spanStage target sourceLen st (XNode.elt ty ab dsrA cs) with
    | SpanAct.retNone => (st, none)
    | SpanAct.retRes r st' => (st', some r)
    | SpanAct.walk st' =>
      match walkChildren dcl target sourceLen fuel dsrA st' [] [] cs with
      | (st'', LoopOut.ret r) => (st'', some r)
      | (st'', LoopOut.fin els) =>
        if els.length = 0 then (st'', none)
        else if els.length < cs.length then
          (st'', some ⟨!st''.waitingForEndMatch, els⟩)
        else (st'', some ⟨!st''.waitingForEndMatch, [XNode.elt ty ab dsrA cs]⟩)

/-- The `while (c)` sibling loop of `walkDOM` (lines 198–288 of the
source).  `pd` is the parent's `dsr`, `els`/`pn` the `elements` and
`precedingNodes` accumulators.  Each iteration first copies
`waitingForEndMatch` into the shared `wasWaiting`, then processes the
child, then applies the `break` test, then advances (skipping over
encapsulated content). -/
def walkChildren (dcl : String → Int) (target : JRange) (sourceLen : Int) :
    Nat → Option DSRPair → MState → List XNode → List XNode → List XNode →
      MState × LoopOut
  | 0, _, st, els, _, _ => (st, LoopOut.fin els)
  | _ + 1, _, st, els, _, [] => (st, LoopOut.fin els)
  | fuel + 1, pd, st0, els, pn, c :: rest =>
    let st := { st0 with wasWaiting := st0.waitingForEndMatch }
    match c with
    | XNode.elt ty ab d ccs =>
      match walkDOM dcl target sourceLen fuel st (XNode.elt ty ab d ccs) with
      | (st1, some r) =>
        let st2mc := reconcile dcl target pd st1 pn r.nodes
        let st3d := singleChildCheck target st2mc.1 r.done st2mc.2
        if st3d.2 then (st3d.1, LoopOut.ret ⟨true, st2mc.2⟩)
        else if st3d.1.wasWaiting ∧ ¬st3d.1.waitingForEndMatch then
          (st3d.1, LoopOut.fin st2mc.2)
        else
          walkChildren dcl target sourceLen fuel pd st3d.1 st2mc.2 []
            (nextSiblings (XNode.elt ty ab d ccs) rest)
      | (st1, none) =>
        let els' := if st1.wasWaiting ∨ st1.waitingForEndMatch then els ++ [c] else els
        if st1.wasWaiting ∧ ¬st1.waitingForEndMatch then (st1, LoopOut.fin els')
        else
          walkChildren dcl target sourceLen fuel pd st1 els' []
            (nextSiblings (XNode.elt ty ab d ccs) rest)
    | _ =>
      let st1 := textStep dcl target st c
      let els' := if st1.wasWaiting ∨ st1.waitingForEndMatch then els ++ [c] else els
      let pn' :=
        if st1.wasWaiting ∨ st1.waitingForEndMatch then pn
        else if jsTruthyInt st1.currentOffset then pn
        else pn ++ [c]
      if st1.wasWaiting ∧ ¬st1.waitingForEndMatch then (st1, LoopOut.fin els')
      else walkChildren dcl target sourceLen fuel pd st1 els' pn' rest

end

mutual

/-- Fuel bound for `walkDOM` at a node: one unit per node and per sibling
list position, which strictly dominates the recursion (each
`walkDOM`/`walkChildren` call descends into a child or a suffix of a
sibling list). -/
def fuelOfNode : XNode → Nat
  | XNode.elt _ _ _ cs => fuelOfList cs + 1
  | XNode.text _ => 1
  | XNode.comment _ => 1

def fuelOfList : List XNode → Nat
  | [] => 1
  | c :: cs => fuelOfNode c + fuelOfList cs + 1

end

/-- `findMatchingNodes(root, targetRange, sourceLen)` of the source:
run `walkDOM` on the root with fresh closure state and sufficient fuel. -/
def findMatchingNodes (dcl : String → Int) (root : XNode) (targetRange : JRange)
    (sourceLen : Int) : Option MatchResult :=
  (walkDOM dcl targetRange sourceLen (fuelOfNode root)
    { currentOffset := none, wasWaiting := false, waitingForEndMatch := false } root).2

/-! ## The significance classifier (`checkIfSignificant`)

The classifier's external collaborators (DOMUtils and Diff functions that
live outside the given sources) are passed in as a `Collabs` record; the
in-file pieces (`findMatchingNodes`, `normalizeWikitext`, `formatDiff`,
the fostered-content and implicit-close regexes) are embedded from the
source.  `data` carries the two wikitexts and the two document bodies
(already built and `data-parsoid`-annotated, which in the source is done
by the external domino/`DU.applyDataParsoid` calls). -/

/-- One changed region: `offset[0]` (old) and `offset[1]` (new). -/
structure OffsetPair where
  old : JRange
  new : JRange
deriving DecidableEq, Repr

inductive DiffKind where
  | skip
  | fail
deriving DecidableEq, Repr

/-- One classification result: `{type, offset, wtDiff[, htmlDiff]}`; the
`htmlDiff` field is absent (`none`) on skip results. -/
structure DiffResult where
  type : DiffKind
  offset : OffsetPair
  wtDiff : String
  htmlDiff : Option String
deriving DecidableEq, Repr

/-- `formatDiff(oldWt, newWt, offset, context)` of the source:
`['----', old excerpt, '++++', new excerpt].join('\n')` with the excerpts
widened by `context` on each side (clamped by `substring`). -/
def formatDiff (oldWt newWt : String) (offset : OffsetPair) (context : Int) : String :=
  "----" ++ "\n" ++
    jsSubstring oldWt (offset.old.start - context) (offset.old.«end» + context) ++
    "\n" ++ "++++" ++ "\n" ++
    jsSubstring newWt (offset.new.start - context) (offset.new.«end» + context)

/-- The implicit-close test `/^\n?<\/[^>]+>\n?$/` on the new-text
excerpt: an optional newline, one closing tag, an optional newline, and
nothing else. -/
def closingTagOnly (s : String) : Bool :=
  let l1 := match s.data with
    | '\n' :: t => t
    | l => l
  match l1 with
  | '<' :: '/' :: t =>
    let name := t.takeWhile (fun c => !(c == '>'))
    if name.isEmpty then false
    else
      match t.drop name.length with
      | ['>'] => true
      | ['>', '\n'] => true
      | _ => false
  | _ => false

example : closingTagOnly "</div>" = true := by decide
example : closingTagOnly "\n</b>\n" = true := by decide
example : closingTagOnly "x</b>" = false := by decide
example : closingTagOnly "</b>x" = false := by decide
example : closingTagOnly "</>" = false := by decide

/-- Lines 387–389 of the source: the region denotes an implicitly closed
element when the old range is empty and the new excerpt
(`newWt.substr(start, end - start)`) is exactly a closing tag. -/
def implicitlyClosed (newWt : String) (offset : OffsetPair) : Bool :=
  offset.old.start == offset.old.«end» &&
    closingTagOnly
      (jsSubstr newWt offset.new.start (offset.new.«end» - offset.new.start))

/-- Lines 390–395 of the source: when `implicitlyClosed`, decrement
`offset[0].start` (in the source this mutates the caller's offset object;
here the adjusted pair is used for everything downstream, including the
`offset` field of the returned result). -/
def adjustOffset (newWt : String) (offset : OffsetPair) : OffsetPair :=
  if implicitlyClosed newWt offset then
    { offset with old := { offset.old with start := offset.old.start - 1 } }
  else offset

/-- The fostered-content test
`/("|&quot;)fostered("|&quot;)\s*:\s*true\b/` at one position. -/
def fosteredAt (l : List Char) : Bool :=
  match (match l with
         | '"' :: rest => some rest
         | '&' :: 'q' :: 'u' :: 'o' :: 't' :: ';' :: rest => some rest
         | _ => none) with
  | none => false
  | some r1 =>
    match litHead "fostered".data r1 with
    | none => false
    | some r2 =>
      match (match r2 with
             | '"' :: rest => some rest
             | '&' :: 'q' :: 'u' :: 'o' :: 't' :: ';' :: rest => some rest
             | _ => none) with
      | none => false
      | some r3 =>
        match r3.dropWhile jsIsSpace with
        | ':' :: r5 =>
          match litHead "true".data (r5.dropWhile jsIsSpace) with
          | some r7 => boundaryAfter r7
          | none => false
        | _ => false

/-- `regex.test` on the whole string: a match at some position. -/
def fosteredScan : List Char → Bool
  | [] => false
  | c :: rest => fosteredAt (c :: rest) || fosteredScan rest

/-- The line-360 test applied to `oldBody.outerHTML`. -/
def fosteredTest (s : String) : Bool := fosteredScan s.data

example : fosteredTest "{&quot;fostered&quot;:true}" = true := by decide
example : fosteredTest "x \"fostered\" : true," = true := by decide
example : fosteredTest "\"fostered\":truest" = false := by decide
example : fosteredTest "\"fostered\":false" = false := by decide

/-- External collaborators of `checkIfSignificant` (functions of modules
outside the given sources), named after their call sites:
`outerHTML` (domino's accessor), `normalizeOutT` for
`DU.normalizeOut(body, true)`, `serializeNode` for
`DU.serializeNode(node, {smartQuote: false})`, `formatNorm` for the
composition `DU.formatHTML(DU.normalizeOut(html))`, `htmlDiff` for
`Diff.htmlDiff(a, b, false, true, true)`, and `decodedCommentLength` for
`DU.decodedCommentLength` on a comment's data. -/
structure Collabs where
  outerHTML : XNode → String
  normalizeOutT : XNode → String
  serializeNode : XNode → String
  formatNorm : String → String
  htmlDiff : String → String → String
  decodedCommentLength : String → Int

/-- The classifier's inputs from the surrounding pipeline: the old and
new wikitext and the two parsed, annotated bodies. -/
structure RTData where
  oldWt : String
  newWt : String
  oldBody : XNode
  newBody : XNode

/-- `res ? res.nodes : []` around the matcher call (lines 397–398 and
405–406 of the source). -/
def matchedNodes (dcl : String → Int) (body : XNode) (r : JRange) (len : Int) :
    List XNode :=
  match findMatchingNodes dcl body r len with
  | some res => res.nodes
  | none => []

/-- The body of the per-offset loop of `checkIfSignificant` (lines
381–436 of the source): adjust the offset for implicit closes, extract
and serialize the matched fragments of both documents, diff their
normalized renderings, and promote to `fail` only when that diff is
non-empty and the normalized wikitext excerpts differ. -/
def processPair (co : Collabs) (data : RTData) (offset0 : OffsetPair) : DiffResult :=
  let offset := adjustOffset data.newWt offset0
  let origOut := matchedNodes co.decodedCommentLength data.oldBody offset.old
    (data.oldWt.length : Int)
  let origHTML := co.formatNorm (String.join (origOut.map co.serializeNode))
  let newOut := matchedNodes co.decodedCommentLength data.newBody offset.new
    (data.newWt.length : Int)
  let newHTML := co.formatNorm (String.join (newOut.map co.serializeNode))
  let wt1 := jsSubstring data.oldWt offset.old.start offset.old.«end»
  let wt2 := jsSubstring data.newWt offset.new.start offset.new.«end»
  let diff := co.htmlDiff origHTML newHTML
  if diff.length > 0 then
    if normalizeWikitext wt1 ≠ normalizeWikitext wt2 then
      { type := DiffKind.fail, offset := offset,
        wtDiff := formatDiff data.oldWt data.newWt offset 25,
        htmlDiff := some diff }
    else
      { type := DiffKind.skip, offset := offset,
        wtDiff := formatDiff data.oldWt data.newWt offset 0, htmlDiff := none }
  else
    { type := DiffKind.skip, offset := offset,
      wtDiff := formatDiff data.oldWt data.newWt offset 0, htmlDiff := none }

/-- Lines 360–366 of the source: the document-level short circuit is
taken when the old body's outer HTML shows no fostered-content marker and
the two `DU.normalizeOut(body, true)` renderings coincide.  (Only the old
body is tested for fostered content.) -/
def fastPathTaken (co : Collabs) (data : RTData) : Bool :=
  !fosteredTest (co.outerHTML data.oldBody) &&
    co.normalizeOutT data.oldBody == co.normalizeOutT data.newBody

/-- `checkIfSignificant(offsets, data)` of the source: on the fast path
every offset pair yields a zero-context skip result; otherwise each pair
goes through the full per-region loop, in input order. -/
def checkIfSignificant (co : Collabs) (offsets : List OffsetPair) (data : RTData) :
    List DiffResult :=
  if fastPathTaken co data then
    offsets.map (fun offset =>
      { type := DiffKind.skip, offset := offset,
        wtDiff := formatDiff data.oldWt data.newWt offset 0, htmlDiff := none })
  else
    offsets.map (processPair co data)

/-! ## Helper lemmas -/

theorem jsOrInt_some_zero_default (x : Int) : jsOrInt (some x) 0 = x := by
  simp only [jsOrInt]
  split_ifs with h
  · omega
  · rfl

theorem jsOrInt_some_of_ne (x d : Int) (h : x ≠ 0) : jsOrInt (some x) d = x := by
  simp [jsOrInt, h]

/-- One-step unfolding of `walkDOM` at an element. -/
theorem walkDOM_elt_eq (dcl : String → Int) (target : JRange) (sourceLen : Int)
    (fuel : Nat) (st : MState) (ty : String) (ab : Option String)
    (d : Option DSRPair) (cs : List XNode) :
    walkDOM dcl target sourceLen (fuel + 1) st (XNode.elt ty ab d cs) =
      match spanStage target sourceLen st (XNode.elt ty ab d cs) with
      | SpanAct.retNone => (st, none)
      | SpanAct.retRes r st' => (st', some r)
      | SpanAct.walk st' =>
        match walkChildren dcl target sourceLen fuel d st' [] [] cs with
        | (st'', LoopOut.ret r) => (st'', some r)
        | (st'', LoopOut.fin els) =>
          if els.length = 0 then (st'', none)
          else if els.length < cs.length then
            (st'', some ⟨!st''.waitingForEndMatch, els⟩)
          else (st'', some ⟨!st''.waitingForEndMatch, [XNode.elt ty ab d cs]⟩) := rfl

/-- At an element with a present `dsr` whose both entries are non-null,
the span stage computes with `start = s` (the `|| 0` default never
changes a present value) and, when `e0 ≠ 0`, `end = e0`; an exactly
matching non-empty span is returned alone. -/
theorem spanStage_exact (target : JRange) (sourceLen : Int) (st : MState)
    (ty : String) (ab : Option String) (cs : List XNode) (s e0 : Int)
    (hW : st.waitingForEndMatch = false)
    (hs : target.start = s) (he : target.«end» = e0)
    (hlt : s < e0) (hne : e0 ≠ 0) :
    spanStage target sourceLen st (XNode.elt ty ab (some ⟨some s, some e0⟩) cs) =
      SpanAct.retRes ⟨true, [XNode.elt ty ab (some ⟨some s, some e0⟩) cs]⟩ st := by
  simp only [spanStage, XNode.dsrOf, jsOrInt_some_zero_default,
    jsOrInt_some_of_ne _ _ hne, hW]
  rw [if_neg (by omega)]
  simp only [Bool.false_eq_true, if_false]
  rw [if_pos ⟨rfl, hs, he.symm⟩]

/-! ## C3 — idempotence of the wikitext normalizer -/

/-- C3 counterexample: `normalizeWikitext` is not idempotent.  On
`'" " "'` the quote-stripping rule removes the first quote pair, leaving
two adjacent spaces that the (already executed) space-collapsing rule no
longer sees; a second application collapses them, so the results
differ. -/
theorem normalizeWikitext_not_idempotent :
    normalizeWikitext (normalizeWikitext "\" \" \"") ≠
      normalizeWikitext "\" \" \"" := by decide

/-- C3 (amended): the space-collapsing stage of `normalizeWikitext`
(rule 3, `replace(/ +/g, ' ')`, embedded as `collapseRun`) is idempotent
for every flag and input; the full normalizer is not (see the
counterexample), because later rules can create new space runs. -/
theorem collapseRun_idem (b : Bool) (l : List Char) :
    collapseRun b (collapseRun b l) = collapseRun b l := by
  induction l generalizing b with
  | nil => rfl
  | cons c t ih =>
    by_cases hc : c = ' '
    · subst hc
      cases b with
      | true => simpa [collapseRun] using ih true
      | false => simp [collapseRun, ih true]
    · simp [collapseRun, hc, ih false]

/-! ## C5 — exact span match -/

/-- C5 counterexample: a node whose known span `[5,5)` equals the
target `[5,5)` exactly is pruned (the disjointness test
`targetRange.end - 1 < start` fires on the empty span), so the matcher
returns `null` instead of the claimed `{done: true, nodes: [node]}`. -/
theorem exact_match_empty_span_prunes :
    findMatchingNodes (fun _ => 0) (XNode.elt "" none (some ⟨some 5, some 5⟩) [])
      ⟨5, 5⟩ 20 = none := rfl

/-- C5 (amended): for a node whose known span `[s, e0)` satisfies
`s = target.start` and `e0 = target.end` with a genuine (non-null) start,
the matcher not in the waiting-for-end state, and — as the counterexample
forces — the span non-empty (`s < e0`) and its end non-zero (a zero
`dsr[1]` is replaced by `sourceLen - 1` by the `||` defaulting), `walkDOM`
returns `{done: true, nodes: [node]}` and never visits the node's
children: the equation holds for every fuel (including fuel exhausted for
any recursion) and every children list. -/
theorem exact_span_match_returns_node (dcl : String → Int) (target : JRange)
    (sourceLen : Int) (fuel : Nat) (st : MState) (ty : String) (ab : Option String)
    (cs : List XNode) (s e0 : Int)
    (hW : st.waitingForEndMatch = false)
    (hs : target.start = s) (he : target.«end» = e0)
    (hlt : s < e0) (hne : e0 ≠ 0) :
    walkDOM dcl target sourceLen (fuel + 1) st
        (XNode.elt ty ab (some ⟨some s, some e0⟩) cs) =
      (st, some ⟨true, [XNode.elt ty ab (some ⟨some s, some e0⟩) cs]⟩) := by
  rw [walkDOM_elt_eq, spanStage_exact target sourceLen st ty ab cs s e0 hW hs he hlt hne]

/-- C5 witness: the amended theorem applied at the concrete node with
span `[3,7)`, target `[3,7)`, fresh state and no fuel for recursion. -/
theorem exact_span_match_returns_node_witness :
    walkDOM (fun _ => 0) ⟨3, 7⟩ 30 1 ⟨none, false, false⟩
        (XNode.elt "" none (some ⟨some 3, some 7⟩) [XNode.text "x"]) =
      (⟨none, false, false⟩,
        some ⟨true, [XNode.elt "" none (some ⟨some 3, some 7⟩) [XNode.text "x"]]⟩) :=
  exact_span_match_returns_node (fun _ => 0) ⟨3, 7⟩ 30 0 ⟨none, false, false⟩
    "" none [XNode.text "x"] 3 7 rfl rfl rfl (by decide) (by decide)

/-! ## C6 — pruning of disjoint spans -/

/-- C6 counterexample: a node with the known span `[0,0)` and target
`[3,4)` is disjoint from it (`target.start ≥ e`), yet the matcher does
not return `null`: the `||` defaulting turns the zero `dsr[1]` into
`sourceLen - 1`, the disjointness test fails, and the node's child is
visited and returned. -/
theorem prune_zero_end_visits_descendants :
    findMatchingNodes (fun _ => 0)
        (XNode.elt "" none (some ⟨some 0, some 0⟩)
          [XNode.elt "" none (some ⟨some 3, some 4⟩) []])
        ⟨3, 4⟩ 10 =
      some ⟨true, [XNode.elt "" none (some ⟨some 3, some 4⟩) []]⟩ := rfl

/-- C6 (amended): for a node with a known span `[s, e0)` whose end is
non-zero (as the counterexample forces: a zero `dsr[1]` is treated as
unknown by the `||` defaulting), if the target is disjoint from it
(`target.end ≤ s` or `target.start ≥ e0`), `walkDOM` returns `null`
immediately with the state untouched, without visiting any descendant:
the equation holds for every fuel (including fuel exhausted for any
recursion) and every children list. -/
theorem prune_disjoint_returns_none (dcl : String → Int) (target : JRange)
    (sourceLen : Int) (fuel : Nat) (st : MState) (ty : String) (ab : Option String)
    (cs : List XNode) (s e0 : Int)
    (hne : e0 ≠ 0)
    (hdisj : target.«end» ≤ s ∨ target.start ≥ e0) :
    walkDOM dcl target sourceLen (fuel + 1) st
        (XNode.elt ty ab (some ⟨some s, some e0⟩) cs) = (st, none) := by
  rw [walkDOM_elt_eq]
  have hspan : spanStage target sourceLen st
      (XNode.elt ty ab (some ⟨some s, some e0⟩) cs) = SpanAct.retNone := by
    simp only [spanStage, XNode.dsrOf, jsOrInt_some_zero_default,
      jsOrInt_some_of_ne _ _ hne]
    rw [if_pos (by omega)]
  rw [hspan]

/-- C6 witness: the amended theorem at the concrete node with span
`[2,5)` and the disjoint target `[7,9)` (with zero remaining fuel and a
non-trivial children list, confirming that no descendant is needed). -/
theorem prune_disjoint_returns_none_witness :
    walkDOM (fun _ => 0) ⟨7, 9⟩ 30 1 ⟨none, false, false⟩
        (XNode.elt "" none (some ⟨some 2, some 5⟩)
          [XNode.elt "" none (some ⟨some 7, some 9⟩) []]) =
      (⟨none, false, false⟩, none) :=
  prune_disjoint_returns_none (fun _ => 0) ⟨7, 9⟩ 30 0 ⟨none, false, false⟩
    "" none [XNode.elt "" none (some ⟨some 7, some 9⟩) []] 2 5 (by decide)
    (Or.inr (by decide))

/-! ## C7 — defaults for unknown root span values -/

/-- C7 counterexample: on a traversal root whose `dsr` entries are null
the matcher substitutes `sourceLen - 1` — not `sourceLen` — for the
missing end: with `sourceLen = 10` the in-range target `[9,10)` is
pruned at the root even though a child matches it exactly, so the whole
document is not a valid fallback container for every target range within
`[0, sourceLen)`. -/
theorem root_default_end_prunes_last_character :
    findMatchingNodes (fun _ => 0)
        (XNode.elt "" none (some ⟨none, none⟩)
          [XNode.elt "" none (some ⟨some 9, some 10⟩) []])
        ⟨9, 10⟩ 10 = none := rfl

/-- C7 (amended): on a node whose span metadata is present with null
start and end values, the matcher substitutes `0` for the missing start
and `sourceLen - 1` (not `sourceLen`) for the missing end.  Hence
(first part) a target with `target.end ≤ 0` or `target.start ≥
sourceLen - 1` is pruned, and (second part, pinning both substituted
values) a target starting at `0` and ending beyond `sourceLen - 1`
takes the start-match branch with the short end, returning the node with
`done: false` and `waitingForEndMatch` set. -/
theorem root_unknown_span_defaults (dcl : String → Int) (target : JRange)
    (sourceLen : Int) (fuel : Nat) (st : MState) (ty : String) (ab : Option String)
    (cs : List XNode)
    (hW : st.waitingForEndMatch = false) :
    (target.«end» ≤ 0 ∨ target.start ≥ sourceLen - 1 →
      walkDOM dcl target sourceLen (fuel + 1) st
          (XNode.elt ty ab (some ⟨none, none⟩) cs) = (st, none)) ∧
    (target.start = 0 → 1 ≤ target.«end» → sourceLen - 1 < target.«end» →
      2 ≤ sourceLen →
      walkDOM dcl target sourceLen (fuel + 1) st
          (XNode.elt ty ab (some ⟨none, none⟩) cs) =
        ({ st with waitingForEndMatch := true },
          some ⟨false, [XNode.elt ty ab (some ⟨none, none⟩) cs]⟩)) := by
  constructor
  · intro hdisj
    rw [walkDOM_elt_eq]
    have hspan : spanStage target sourceLen st
        (XNode.elt ty ab (some ⟨none, none⟩) cs) = SpanAct.retNone := by
      simp only [spanStage, XNode.dsrOf, jsOrInt]
      rw [if_pos (by omega)]
    rw [hspan]
  · intro h0 h1 hbig hlen
    rw [walkDOM_elt_eq]
    have hspan : spanStage target sourceLen st
        (XNode.elt ty ab (some ⟨none, none⟩) cs) =
        SpanAct.retRes ⟨false, [XNode.elt ty ab (some ⟨none, none⟩) cs]⟩
          { st with waitingForEndMatch := true } := by
      simp only [spanStage, XNode.dsrOf, jsOrInt, hW]
      rw [if_neg (by omega)]
      simp only [Bool.false_eq_true, if_false, Option.isSome_none, false_and]
      rw [if_pos h0, if_pos (by omega)]
    rw [hspan]

/-- C7 witness: both parts of the amended theorem at `sourceLen = 10`:
the target `[9,10)` (inside `[0, sourceLen)`) is pruned, and the target
`[0,10)` returns the root not-done with `waitingForEndMatch` set. -/
theorem root_unknown_span_defaults_witness :
    walkDOM (fun _ => 0) ⟨9, 10⟩ 10 1 ⟨none, false, false⟩
        (XNode.elt "" none (some ⟨none, none⟩) []) = (⟨none, false, false⟩, none) ∧
    walkDOM (fun _ => 0) ⟨0, 10⟩ 10 1 ⟨none, false, false⟩
        (XNode.elt "" none (some ⟨none, none⟩) []) =
      (⟨none, false, true⟩, some ⟨false, [XNode.elt "" none (some ⟨none, none⟩) []]⟩) :=
  ⟨(root_unknown_span_defaults (fun _ => 0) ⟨9, 10⟩ 10 0 ⟨none, false, false⟩
      "" none [] rfl).1 (by decide),
   (root_unknown_span_defaults (fun _ => 0) ⟨0, 10⟩ 10 0 ⟨none, false, false⟩
      "" none [] rfl).2 rfl (by decide) (by decide) (by decide)⟩

/-! ## C4 — atomicity of encapsulated content -/

/-- Whether the span stage fell through to the sibling loop. -/
def spanActIsWalk : SpanAct → Bool
  | SpanAct.walk _ => true
  | _ => false

/-- Every result returned directly by the span stage carries exactly the
node itself. -/
theorem spanStage_retRes_nodes (target : JRange) (sourceLen : Int) (st : MState)
    (e : XNode) (r : MatchResult) (st' : MState)
    (h : spanStage target sourceLen st e = SpanAct.retRes r st') :
    r.nodes = [e] := by
  simp only [spanStage] at h
  split at h
  · exact SpanAct.noConfusion h
  · split_ifs at h <;>
      first
      | exact SpanAct.noConfusion h
      | (injection h with h1 h2; subst h1; rfl)

/-- C4 counterexample node set: a transclusion node with no `dsr` of its
own, holding one child whose span matches the target exactly. -/
def exE4 : XNode := XNode.elt "" none (some ⟨some 3, some 7⟩) []

def exT4 : XNode := XNode.elt "mw:Transclusion" none none [exE4]

def exRoot4 : XNode := XNode.elt "" none none [exT4]

/-- C4 counterexample: the matcher recurses into the opaque node `exT4`
(classified `mw:Transclusion`) before the encapsulation skip is ever
consulted, and returns the proper subtree part `[exE4]` without `exT4`
itself — an opaque node is not always returned whole or not at all. -/
theorem encapsulated_node_split :
    isEncapType exT4.typeofOf = true ∧
    exT4.childrenOf = [exE4] ∧
    findMatchingNodes (fun _ => 0) exRoot4 ⟨3, 7⟩ 20 = some ⟨true, [exE4]⟩ ∧
    exE4.typeofOf ≠ exT4.typeofOf := by
  exact ⟨by decide, rfl, rfl, by decide⟩

/-- C4 (amended): an opaque (transclusion/param/extension) node is
returned whole or not at all whenever its own span-stage decision does
not fall through to the sibling loop (it is pruned, absorbed while
waiting for the end, an exact match, a start match with a short end, or
strictly inside the target).  When the span stage does fall through
(unknown `dsr`, or a span straddling the target asymmetrically), the
matcher recurses into the opaque node's children and can return a proper
part of its subtree, as the counterexample shows; the encapsulation skip
only affects which sibling is scanned next. -/
theorem encap_whole_unless_recursed (dcl : String → Int) (target : JRange)
    (sourceLen : Int) (fuel : Nat) (st : MState) (ty : String) (ab : Option String)
    (d : Option DSRPair) (cs : List XNode)
    (hEnc : isEncapType ty = true)
    (hAct : spanActIsWalk (spanStage target sourceLen st (XNode.elt ty ab d cs)) = false) :
    (walkDOM dcl target sourceLen (fuel + 1) st (XNode.elt ty ab d cs)).2 = none ∨
    ∃ r, (walkDOM dcl target sourceLen (fuel + 1) st (XNode.elt ty ab d cs)).2 = some r ∧
      r.nodes = [XNode.elt ty ab d cs] := by
  rw [walkDOM_elt_eq]
  rcases hsp : spanStage target sourceLen st (XNode.elt ty ab d cs) with _ | ⟨r, st'⟩ | st'
  · left
    rfl
  · right
    exact ⟨r, rfl, spanStage_retRes_nodes _ _ _ _ _ _ hsp⟩
  · rw [hsp] at hAct
    exact absurd hAct (by simp [spanActIsWalk])

/-- C4 witness: the amended theorem at a concrete transclusion node with
span `[2,5)` matching the target exactly (span stage returns, no
recursion), concluding the node comes back whole. -/
theorem encap_whole_unless_recursed_witness :
    (walkDOM (fun _ => 0) ⟨2, 5⟩ 30 1 ⟨none, false, false⟩
        (XNode.elt "mw:Transclusion" none (some ⟨some 2, some 5⟩)
          [XNode.text "q"])).2 = none ∨
    ∃ r, (walkDOM (fun _ => 0) ⟨2, 5⟩ 30 1 ⟨none, false, false⟩
        (XNode.elt "mw:Transclusion" none (some ⟨some 2, some 5⟩)
          [XNode.text "q"])).2 = some r ∧
      r.nodes = [XNode.elt "mw:Transclusion" none (some ⟨some 2, some 5⟩)
        [XNode.text "q"]] :=
  encap_whole_unless_recursed (fun _ => 0) ⟨2, 5⟩ 30 0 ⟨none, false, false⟩
    "mw:Transclusion" none (some ⟨some 2, some 5⟩) [XNode.text "q"]
    (by decide) (by decide)

/-! ## C9 — non-null results carry non-empty node lists -/

/-- The reconciliation step only ever prepends to the matched nodes. -/
theorem reconcile_snd_ne_nil (dcl : String → Int) (target : JRange)
    (pd : Option DSRPair) (st : MState) (pn nodes : List XNode)
    (h : nodes ≠ []) : (reconcile dcl target pd st pn nodes).2 ≠ [] := by
  unfold reconcile
  split
  · split_ifs
    · exact h
    · simp only []
      intro hc
      rcases List.append_eq_nil.mp hc with ⟨-, h2⟩
      exact h h2
  · exact h

/-- Auxiliary induction for C9, simultaneously over `walkDOM` and the
`ret` outcomes of `walkChildren`. -/
theorem walk_nonempty_aux (fuel : Nat) :
    (∀ (dcl : String → Int) (target : JRange) (sourceLen : Int) (st : MState)
       (e : XNode) (st' : MState) (r : MatchResult),
       walkDOM dcl target sourceLen fuel st e = (st', some r) → r.nodes ≠ []) ∧
    (∀ (dcl : String → Int) (target : JRange) (sourceLen : Int) (pd : Option DSRPair)
       (st : MState) (els pn cs : List XNode) (st' : MState) (r : MatchResult),
       walkChildren dcl target sourceLen fuel pd st els pn cs = (st', LoopOut.ret r) →
       r.nodes ≠ []) := by
  induction fuel with
  | zero =>
    constructor
    · intro dcl target sourceLen st e st' r h
      simp [walkDOM] at h
    · intro dcl target sourceLen pd st els pn cs st' r h
      simp [walkChildren] at h
  | succ f ih =>
    constructor
    · intro dcl target sourceLen st e st' r h
      match e with
      | XNode.text v => simp [walkDOM] at h
      | XNode.comment v => simp [walkDOM] at h
      | XNode.elt ty ab d cs =>
        rw [walkDOM_elt_eq] at h
        rcases hsp : spanStage target sourceLen st (XNode.elt ty ab d cs) with
          _ | ⟨r0, st0⟩ | st0 <;> rw [hsp] at h
        · simp at h
        · simp only [Prod.mk.injEq, Option.some.injEq] at h
          rw [← h.2]
          rw [spanStage_retRes_nodes _ _ _ _ _ _ hsp]
          simp
        · simp only [] at h
          rcases hwc : walkChildren dcl target sourceLen f d st0 [] [] cs with ⟨st1, lo⟩
          rw [hwc] at h
          match lo with
          | LoopOut.ret r1 =>
            simp only [Prod.mk.injEq, Option.some.injEq] at h
            rw [← h.2]
            exact ih.2 dcl target sourceLen d st0 [] [] cs st1 r1 hwc
          | LoopOut.fin els =>
            simp only [] at h
            split_ifs at h with h1 hlen
            · simp at h
            · simp only [Prod.mk.injEq, Option.some.injEq] at h
              rw [← h.2]
              simpa using h1
            · simp only [Prod.mk.injEq, Option.some.injEq] at h
              rw [← h.2]
              simp
    · intro dcl target sourceLen pd st els pn cs st' r h
      match cs with
      | [] => simp [walkChildren] at h
      | c :: rest =>
        match c with
        | XNode.elt ty ab d ccs =>
          simp only [walkChildren] at h
          rcases hwd : walkDOM dcl target sourceLen f
              { st with wasWaiting := st.waitingForEndMatch } (XNode.elt ty ab d ccs) with
            ⟨st1, res⟩
          rw [hwd] at h
          match res with
          | some r0 =>
            simp only [] at h
            split_ifs at h with hdone hbreak
            · simp only [Prod.mk.injEq, LoopOut.ret.injEq] at h
              rw [← h.2]
              exact reconcile_snd_ne_nil dcl target pd st1 pn r0.nodes
                (ih.1 dcl target sourceLen _ _ _ _ hwd)
            · simp at h
            · exact ih.2 _ _ _ _ _ _ _ _ _ _ h
          | none =>
            simp only [] at h
            split_ifs at h <;>
              first
              | exact ih.2 _ _ _ _ _ _ _ _ _ _ h
              | simp at h
        | XNode.text v =>
          simp only [walkChildren] at h
          split_ifs at h <;>
            first
            | exact ih.2 _ _ _ _ _ _ _ _ _ _ h
            | simp at h
        | XNode.comment v =>
          simp only [walkChildren] at h
          split_ifs at h <;>
            first
            | exact ih.2 _ _ _ _ _ _ _ _ _ _ h
            | simp at h

/-- C9: whenever `walkDOM` (and hence `findMatchingNodes`, which is its
top-level call) returns a non-null `MatchResult`, its `nodes` list is
non-empty — every return site either carries `[element]`, a recursively
obtained non-empty child list (possibly extended by reconciliation), or a
non-empty `elements` accumulator. -/
theorem matchResult_nodes_nonempty (fuel : Nat) (dcl : String → Int)
    (target : JRange) (sourceLen : Int) (st : MState) (e : XNode)
    (st' : MState) (r : MatchResult)
    (h : walkDOM dcl target sourceLen fuel st e = (st', some r)) : r.nodes ≠ [] :=
  (walk_nonempty_aux fuel).1 dcl target sourceLen st e st' r h

/-- C9 witness: the invariant instantiated at a concrete exact-match
call. -/
theorem matchResult_nodes_nonempty_witness :
    (⟨true, [XNode.elt "" none (some ⟨some 1, some 4⟩) []]⟩ : MatchResult).nodes ≠ [] :=
  matchResult_nodes_nonempty 1 (fun _ => 0) ⟨1, 4⟩ 9 ⟨none, false, false⟩
    (XNode.elt "" none (some ⟨some 1, some 4⟩) []) ⟨none, false, false⟩
    ⟨true, [XNode.elt "" none (some ⟨some 1, some 4⟩) []]⟩ rfl

/-! ## C1 — the fast path -/

/-- C1: when neither document is marked as containing fostered content
(the source in fact only consults the old body's outer HTML, so the
claim's hypothesis is more than sufficient) and the canonical normalized
HTML of the two full documents coincides, `checkIfSignificant` returns
one `skip` result per offset pair, in input order, with the zero-context
wikitext excerpt and no `htmlDiff`.  The right-hand side mentions neither
`findMatchingNodes` nor the `serializeNode`/`formatNorm`/`htmlDiff`
collaborators, and the theorem holds for every `Collabs` record with
these two hypotheses, so no per-region node matching is performed and the
HTML-diff collaborator is never invoked. -/
theorem fastPath_all_skip (co : Collabs) (offsets : List OffsetPair) (data : RTData)
    (hOld : fosteredTest (co.outerHTML data.oldBody) = false)
    (hNew : fosteredTest (co.outerHTML data.newBody) = false)
    (hEq : co.normalizeOutT data.oldBody = co.normalizeOutT data.newBody) :
    checkIfSignificant co offsets data =
      offsets.map (fun offset =>
        { type := DiffKind.skip, offset := offset,
          wtDiff := formatDiff data.oldWt data.newWt offset 0, htmlDiff := none }) := by
  have hf : fastPathTaken co data = true := by
    simp [fastPathTaken, hOld, hEq]
  unfold checkIfSignificant
  rw [if_pos hf]

def c1co : Collabs where
  outerHTML := fun _ => "<body>x</body>"
  normalizeOutT := fun _ => "<p>n</p>"
  serializeNode := fun _ => ""
  formatNorm := fun s => s
  htmlDiff := fun _ _ => "SOME-DIFF"
  decodedCommentLength := fun _ => 0

def c1data : RTData where
  oldWt := "a b"
  newWt := "a c"
  oldBody := XNode.elt "" none none []
  newBody := XNode.text "q"

/-- C1 witness: with agreeing normalized HTML and no fostered marker, the
single offset pair comes back as a zero-context skip even though the
HTML-diff collaborator would report a difference if it were invoked. -/
theorem fastPath_all_skip_witness :
    checkIfSignificant c1co [⟨⟨0, 3⟩, ⟨0, 3⟩⟩] c1data =
      [{ type := DiffKind.skip, offset := ⟨⟨0, 3⟩, ⟨0, 3⟩⟩,
         wtDiff := "----\na b\n++++\na c", htmlDiff := none }] := by
  rw [fastPath_all_skip c1co [⟨⟨0, 3⟩, ⟨0, 3⟩⟩] c1data (by decide) (by decide) rfl]
  decide

/-! ## C2 — two-stage promotion in the full loop -/

/-- The HTML-level diff of one region as computed inside the loop body:
both matched fragments serialized, normalized/pretty-printed, and passed
to the HTML-diff collaborator. -/
def regionHtmlDiff (co : Collabs) (data : RTData) (offset : OffsetPair) : String :=
  co.htmlDiff
    (co.formatNorm (String.join
      ((matchedNodes co.decodedCommentLength data.oldBody offset.old
        (data.oldWt.length : Int)).map co.serializeNode)))
    (co.formatNorm (String.join
      ((matchedNodes co.decodedCommentLength data.newBody offset.new
        (data.newWt.length : Int)).map co.serializeNode)))

/-- The raw wikitext excerpts of one region (`wt1`, `wt2`). -/
def regionWts (data : RTData) (offset : OffsetPair) : String × String :=
  (jsSubstring data.oldWt offset.old.start offset.old.«end»,
   jsSubstring data.newWt offset.new.start offset.new.«end»)

/-- C2: off the fast path, `checkIfSignificant` maps every offset pair
through the loop body `processPair`, and for each pair the result type is
`fail` exactly when the region's HTML diff is non-empty and the
normalizer-processed wikitext excerpts still differ; a `fail` carries the
HTML diff and a 25-character-context wikitext excerpt, a `skip` carries
no HTML diff and the zero-context excerpt. -/
theorem two_stage_promotion (co : Collabs) (data : RTData)
    (offsets : List OffsetPair) (offset0 : OffsetPair)
    (hFast : fastPathTaken co data = false) :
    checkIfSignificant co offsets data = offsets.map (processPair co data) ∧
    ((processPair co data offset0).type = DiffKind.fail ↔
      (regionHtmlDiff co data (adjustOffset data.newWt offset0)).length > 0 ∧
        normalizeWikitext (regionWts data (adjustOffset data.newWt offset0)).1 ≠
          normalizeWikitext (regionWts data (adjustOffset data.newWt offset0)).2) ∧
    ((processPair co data offset0).type = DiffKind.fail →
      (processPair co data offset0).htmlDiff =
          some (regionHtmlDiff co data (adjustOffset data.newWt offset0)) ∧
        (processPair co data offset0).wtDiff =
          formatDiff data.oldWt data.newWt (adjustOffset data.newWt offset0) 25) ∧
    ((processPair co data offset0).type = DiffKind.skip →
      (processPair co data offset0).htmlDiff = none ∧
        (processPair co data offset0).wtDiff =
          formatDiff data.oldWt data.newWt (adjustOffset data.newWt offset0) 0) := by
  refine ⟨?_, ?_, ?_, ?_⟩
  · unfold checkIfSignificant
    rw [if_neg (by simp [hFast])]
  all_goals
    simp only [processPair, regionHtmlDiff, regionWts]
    split_ifs with h1 h2 <;> simp_all

def c2co : Collabs where
  outerHTML := fun _ => ""
  normalizeOutT := fun b => b.typeofOf
  serializeNode := fun _ => ""
  formatNorm := fun s => s
  htmlDiff := fun _ _ => "d"
  decodedCommentLength := fun _ => 0

def c2data : RTData where
  oldWt := "a b"
  newWt := "a c"
  oldBody := XNode.elt "o" none none []
  newBody := XNode.elt "n" none none []

/-- C2 witness: a concrete non-fast-path run in which the region's HTML
diff is non-empty and the normalized excerpts differ, so the iff promotes
the pair to `fail`. -/
theorem two_stage_promotion_witness :
    checkIfSignificant c2co [⟨⟨0, 3⟩, ⟨0, 3⟩⟩] c2data =
        [⟨⟨0, 3⟩, ⟨0, 3⟩⟩].map (processPair c2co c2data) ∧
    (processPair c2co c2data ⟨⟨0, 3⟩, ⟨0, 3⟩⟩).type = DiffKind.fail := by
  have h := two_stage_promotion c2co c2data [⟨⟨0, 3⟩, ⟨0, 3⟩⟩] ⟨⟨0, 3⟩, ⟨0, 3⟩⟩
    (by decide)
  exact ⟨h.1, (h.2.1).mpr ⟨by decide, by decide⟩⟩

/-! ## C8 — totality and input order -/

/-- The loop body's result always records the (possibly implicit-close
adjusted) offset pair. -/
theorem processPair_offset (co : Collabs) (data : RTData) (offset0 : OffsetPair) :
    (processPair co data offset0).offset = adjustOffset data.newWt offset0 := by
  simp only [processPair]
  split_ifs <;> rfl

/-- C8: `checkIfSignificant` is a total function in this embedding (every
partial JS operation it uses — `substring`, `substr`, regex tests,
`res ? res.nodes : []` — is embedded by its total JS semantics), and it
returns exactly one result per offset pair in input order: the results'
offset fields are the input pairs themselves on the fast path and their
implicit-close adjustments otherwise.  When the node matcher finds no
covering node set, the loop degrades to the empty fragment: `matchedNodes`
(the embedding of `res ? res.nodes : []`) yields `[]`, which serializes
to the empty markup string. -/
theorem classification_total_in_order (co : Collabs) (offsets : List OffsetPair)
    (data : RTData) :
    ((checkIfSignificant co offsets data).map (fun r => r.offset) =
      if fastPathTaken co data then offsets
      else offsets.map (adjustOffset data.newWt)) ∧
    (∀ (dcl : String → Int) (body : XNode) (rg : JRange) (len : Int),
      findMatchingNodes dcl body rg len = none → matchedNodes dcl body rg len = []) := by
  constructor
  · unfold checkIfSignificant
    split_ifs with hf
    · simp [List.map_map, Function.comp_def]
    · simp [List.map_map, Function.comp_def, processPair_offset]
  · intro dcl body rg len h
    simp [matchedNodes, h]

def c8co : Collabs where
  outerHTML := fun _ => ""
  normalizeOutT := fun b => b.typeofOf
  serializeNode := fun _ => ""
  formatNorm := fun s => s
  htmlDiff := fun _ _ => ""
  decodedCommentLength := fun _ => 0

def c8data : RTData where
  oldWt := "pq"
  newWt := "xy"
  oldBody := XNode.elt "o" none none []
  newBody := XNode.elt "n" none none []

/-- C8 witness: one concrete non-fast-path run returning its single
offset unchanged, and one concrete matcher miss degrading to the empty
node list. -/
theorem classification_total_in_order_witness :
    (checkIfSignificant c8co [⟨⟨0, 1⟩, ⟨0, 1⟩⟩] c8data).map (fun r => r.offset) =
        [⟨⟨0, 1⟩, ⟨0, 1⟩⟩] ∧
    matchedNodes (fun _ => 0) (XNode.elt "" none (some ⟨some 6, some 8⟩) [])
        ⟨0, 2⟩ 9 = [] := by
  have h := classification_total_in_order c8co [⟨⟨0, 1⟩, ⟨0, 1⟩⟩] c8data
  exact ⟨h.1.trans (by decide), h.2 (fun _ => 0) _ _ _ rfl⟩

/-! ## C10 — the implicit-close adjustment -/

/-- C10: whenever the implicit-close condition holds for an offset pair
(empty old range and a new-text excerpt that is exactly an optional
newline, one closing tag, and an optional newline), the loop body
decrements the pair's old start by one and this decremented pair — with
everything else unchanged — is the `offset` field of the returned
`DiffResult` (the field the XML formatter prints as the testcase's
character position).  In the source the decrement is an in-place mutation
of the caller's offset object; the embedding is functional, so the
observable fact is that every downstream use (node matching, excerpts,
the stored offset) sees the decremented value. -/
theorem implicit_close_decrements (co : Collabs) (data : RTData)
    (offset0 : OffsetPair)
    (h : implicitlyClosed data.newWt offset0 = true) :
    (processPair co data offset0).offset =
      { old := { start := offset0.old.start - 1, «end» := offset0.old.«end» },
        new := offset0.new } := by
  have ha : adjustOffset data.newWt offset0 =
      { old := { start := offset0.old.start - 1, «end» := offset0.old.«end» },
        new := offset0.new } := by
    unfold adjustOffset
    rw [if_pos h]
  rw [processPair_offset, ha]

def c10co : Collabs where
  outerHTML := fun _ => ""
  normalizeOutT := fun _ => ""
  serializeNode := fun _ => ""
  formatNorm := fun s => s
  htmlDiff := fun _ _ => ""
  decodedCommentLength := fun _ => 0

def c10data : RTData where
  oldWt := "abcdef"
  newWt := "</b>\n"
  oldBody := XNode.elt "" none none []
  newBody := XNode.elt "" none none []

/-- C10 witness: a zero-length old range at 2 whose new excerpt is
`"</b>\n"` — the returned result's offset has old start 1. -/
theorem implicit_close_decrements_witness :
    (processPair c10co c10data ⟨⟨2, 2⟩, ⟨0, 5⟩⟩).offset = ⟨⟨1, 2⟩, ⟨0, 5⟩⟩ := by
  rw [implicit_close_decrements c10co c10data ⟨⟨2, 2⟩, ⟨0, 5⟩⟩ (by decide)]
  decide
